import Mathlib

/-
Verification of the workflow execution engine: the superstep scheduler,
the request/response correlation layer, the run state machine with its
concurrency guard, and the background-run handle (poll / is_idle / respond).

The background-run handle (`poll`, `is_idle`) is translated from
`agent_framework/_workflows/_background_run.py`.  The scheduler, run state
machine and respond logic are not part of the visible sources (only their
tests and callers are), so they are modelled from the specification
(sections 4.1 - 4.4); each such definition carries a doc comment starting
with `Modelled from the spec:`.
-/

namespace AF

/-- Message payload values: a closed universe of the payload types the
workflows under test exchange (integers, strings, booleans). -/
inductive Val where
  | int (n : Int)
  | str (s : String)
  | bool (b : Bool)
deriving DecidableEq, Repr

/-- Run State enumeration from the spec data model. -/
inductive RunState where
  | RUNNING
  | IDLE
  | IDLE_WITH_PENDING_REQUESTS
  | FAILED
deriving DecidableEq, Repr

/-- Error taxonomy from the spec (section 7). -/
inductive ErrorKind where
  | ConcurrentRunRejected
  | MissingInput
  | ConflictingInput
  | InvalidRequestId
  | ExecutorFailure
deriving DecidableEq, Repr

/-- Lifecycle events: the tagged variant of the spec data model. -/
inductive Event where
  | started
  | status (state : RunState)
  | superstep_started
  | executor_invoked (executorId : String)
  | executor_completed (executorId : String)
  | superstep_completed
  | output (data : Val)
  | request_info (requestId : String) (request : Val)
  | failed (kind : ErrorKind) (message : String)
deriving DecidableEq, Repr

/-- Actions a handler can take through its workflow context:
send a message, yield an output, or request external info. -/
inductive HandlerAction where
  | sendMessage (payload : Val)
  | yieldOutput (data : Val)
  | requestInfo (request : Val)
deriving DecidableEq, Repr

/-- Result of one handler invocation: the context actions it performed,
an optional local-state write, and an optional raised error. -/
structure HandlerResult where
  actions : List HandlerAction
  setState : Option Val
  error : Option String

/-- Modelled from the spec: an Executor (data model, section 3) — a stable
identifier, a payload-type acceptance predicate (the handler capability
set keyed by message type), the message handler, and the response handler
taking the original request and the response payload. -/
structure Executor where
  id : String
  accepts : Val → Bool
  handle : Val → Option Val → HandlerResult
  respondHandler : Val → Val → Option Val → HandlerResult

/-- Modelled from the spec: the Workflow Graph — executors, directed
edges, and the designated start executor. -/
structure WorkflowGraph where
  executors : List Executor
  edges : List (String × String)
  startId : String

/-- Modelled from the spec: a Pending Request entry — generated request
id, originating executor id and original request payload. -/
structure PendingRequest where
  reqId : String
  executorId : String
  request : Val
deriving DecidableEq, Repr

/-- A queued invocation for a superstep: either a routed message or a
synthetic response-handler invocation produced by `respond`. -/
inductive Invocation where
  | message (targetId : String) (payload : Val)
  | response (targetId : String) (original : Val) (payload : Val)
deriving DecidableEq, Repr

/-- Modelled from the spec: the Superstep Scheduler state — the FIFO
queue of the current superstep, the accumulator for the next superstep,
the Pending-Request Table, per-executor local state, the request id
counter, and the first unhandled executor error, if any. -/
structure SchedState where
  current : List Invocation
  next : List Invocation
  pending : List PendingRequest
  localState : List (String × Val)
  nextReqId : Nat
  failure : Option String
deriving DecidableEq, Repr

def findExecutor (g : WorkflowGraph) (eid : String) : Option Executor :=
  g.executors.find? (fun e => e.id == eid)

/-- Modelled from the spec: fan-out routing — a sent message is broadcast
to all edge targets of the sender whose handler accepts the payload. -/
def routeTargets (g : WorkflowGraph) (src : String) (payload : Val) : List String :=
  ((g.edges.filter (fun e => e.1 == src)).map (fun e => e.2)).filter
    (fun t =>
      match findExecutor g t with
      | some e => e.accepts payload
      | none => false)

def getLocal (states : List (String × Val)) (eid : String) : Option Val :=
  match states.find? (fun p => p.1 == eid) with
  | some p => some p.2
  | none => none

def setLocal (states : List (String × Val)) (eid : String) (v : Val) : List (String × Val) :=
  match states with
  | [] => [(eid, v)]
  | (k, w) :: rest => if k == eid then (eid, v) :: rest else (k, w) :: setLocal rest eid v

/-- Modelled from the spec: request-id allocation — a freshly generated
unique string per pending request. -/
def freshRequestId (n : Nat) : String := "req" ++ toString n

/-- Modelled from the spec: apply a handler's context actions in order —
sent messages are routed into the next-superstep accumulator, outputs
become `output` events, and `request_info` allocates an id, records a
Pending Request and emits a `request_info` event. -/
def applyActions (g : WorkflowGraph) (src : String) :
    List HandlerAction → SchedState → SchedState × List Event
  | [], st => (st, [])
  | HandlerAction.sendMessage p :: rest, st =>
      let sends := (routeTargets g src p).map (fun t => Invocation.message t p)
      applyActions g src rest { st with next := st.next ++ sends }
  | HandlerAction.yieldOutput v :: rest, st =>
      let (st', evs) := applyActions g src rest st
      (st', Event.output v :: evs)
  | HandlerAction.requestInfo req :: rest, st =>
      let rid := freshRequestId st.nextReqId
      let st1 := { st with pending := st.pending ++ [⟨rid, src, req⟩],
                           nextReqId := st.nextReqId + 1 }
      let (st', evs) := applyActions g src rest st1
      (Prod.fst (st', evs), Event.request_info rid req :: Prod.snd (st', evs))

def targetOf : Invocation → String
  | Invocation.message t _ => t
  | Invocation.response t _ _ => t

/-- Select the handler for an invocation: typed message dispatch for
messages, the response handler for synthetic response invocations. -/
def runHandler (e : Executor) (inv : Invocation) (stVal : Option Val) : Option HandlerResult :=
  match inv with
  | Invocation.message _ p => if e.accepts p then some (e.handle p stVal) else none
  | Invocation.response _ orig resp => some (e.respondHandler orig resp stVal)

/-- Modelled from the spec: dispatch one queued invocation — emit
`executor_invoked`, run the matching handler, apply its actions, record a
raised error without crashing siblings, emit `executor_completed`. -/
def dispatch (g : WorkflowGraph) (st : SchedState) (inv : Invocation) :
    SchedState × List Event :=
  let tid := targetOf inv
  match findExecutor g tid with
  | none => (st, [Event.executor_invoked tid, Event.executor_completed tid])
  | some e =>
    match runHandler e inv (getLocal st.localState tid) with
    | none => (st, [Event.executor_invoked tid, Event.executor_completed tid])
    | some r =>
      let (st1, evs) := applyActions g tid r.actions st
      let st2 :=
        match r.setState with
        | some v => { st1 with localState := setLocal st1.localState tid v }
        | none => st1
      let st3 :=
        match r.error with
        | some m =>
          { st2 with failure :=
              match st2.failure with
              | some m0 => some m0
              | none => some m }
        | none => st2
      (st3, Event.executor_invoked tid :: evs ++ [Event.executor_completed tid])

/-- Dispatch every invocation queued for the current superstep, in
arrival order. -/
def dispatchAll (g : WorkflowGraph) : SchedState → List Invocation → SchedState × List Event
  | st, [] => (st, [])
  | st, inv :: rest =>
      let (st1, evs1) := dispatch g st inv
      let (st2, evs2) := dispatchAll g st1 rest
      (st2, evs1 ++ evs2)

/-- Modelled from the spec: one superstep (section 4.1) — emit
`superstep_started`, dispatch all queued invocations, emit
`superstep_completed`, and promote the next-superstep accumulator to the
current queue. -/
def runSuperstep (g : WorkflowGraph) (st : SchedState) : SchedState × List Event :=
  let (st1, evs) := dispatchAll g { st with current := [] } st.current
  ({ st1 with current := st1.next, next := [] },
   Event.superstep_started :: evs ++ [Event.superstep_completed])

/-- A background task: either still running the scheduler, or finished in
a terminal Run State (the final scheduler state is kept so pending
requests and local state survive for `respond` and reruns). -/
inductive TaskState where
  | running (st : SchedState)
  | finished (terminal : RunState) (st : SchedState)
deriving DecidableEq, Repr

/-- Modelled from the spec: one step of the scheduler task — a finished
task produces nothing further; a failed superstep ends the run with a
`failed` event and terminal `FAILED`; with no queued work the run
converges to `IDLE` or `IDLE_WITH_PENDING_REQUESTS`; otherwise one more
superstep executes. -/
def stepTask (g : WorkflowGraph) : TaskState → TaskState × List Event
  | TaskState.finished t st => (TaskState.finished t st, [])
  | TaskState.running st =>
    match st.failure with
    | some m =>
        (TaskState.finished RunState.FAILED st,
         [Event.failed ErrorKind.ExecutorFailure m, Event.status RunState.FAILED])
    | none =>
        if st.current.isEmpty && st.next.isEmpty then
          if st.pending.isEmpty then
            (TaskState.finished RunState.IDLE st, [Event.status RunState.IDLE])
          else
            (TaskState.finished RunState.IDLE_WITH_PENDING_REQUESTS st,
             [Event.status RunState.IDLE_WITH_PENDING_REQUESTS])
        else
          let (st', evs) := runSuperstep g st
          (TaskState.running st', evs)

def stepN (g : WorkflowGraph) : Nat → TaskState → TaskState
  | 0, t => t
  | n + 1, t => stepN g n (stepTask g t).1

/-- Events emitted by the task over `n` scheduler steps. -/
def runSteps (g : WorkflowGraph) : Nat → TaskState → List Event
  | 0, _ => []
  | n + 1, t => (stepTask g t).2 ++ runSteps g n (stepTask g t).1

/-- `asyncio.Task.done()` of the background task. -/
def taskDone : TaskState → Bool
  | TaskState.running _ => false
  | TaskState.finished _ _ => true

/-- A Background Run Handle: the task plus the FIFO event queue the
task's event emission is redirected into (`BackgroundRunHandle`). -/
structure BgState where
  task : TaskState
  queue : List Event
deriving DecidableEq, Repr

/-- `BackgroundRunHandle.is_idle` from the source: `self._task.done()`. -/
def is_idle (b : BgState) : Bool := taskDone b.task

/-- `asyncio.Queue.get_nowait` on the FIFO event queue: the front event
and the remaining queue, or `none` when the queue is empty
(`QueueEmpty`). -/
def get_nowait : List Event → Option (Event × List Event)
  | [] => none
  | e :: rest => some (e, rest)

/-- The drain loop inside `BackgroundRunHandle.poll` from the source:
repeated `get_nowait` until `QueueEmpty`, collecting the events in order;
returns the drained events and the remaining queue. -/
def drainQueue : List Event → List Event × List Event
  | [] => ([], [])
  | e :: rest =>
      let (evs, q') := drainQueue rest
      (e :: evs, q')

/-- `BackgroundRunHandle.poll` from the source: drain all currently
queued events without blocking, returning them as an ordered list
together with the handle after the drain. -/
def poll (b : BgState) : List Event × BgState :=
  let (evs, q') := drainQueue b.queue
  (evs, ⟨b.task, q'⟩)

/-- One observable step of the background task: run one scheduler step
and append its events to the handle's queue. -/
def bgStep (g : WorkflowGraph) (b : BgState) : BgState :=
  ⟨(stepTask g b.task).1, b.queue ++ (stepTask g b.task).2⟩

def bgStepN (g : WorkflowGraph) : Nat → BgState → BgState
  | 0, b => b
  | n + 1, b => bgStepN g n (bgStep g b)

theorem drainQueue_eq : ∀ q : List Event, drainQueue q = (q, []) := by
  intro q
  induction q with
  | nil => rfl
  | cons e rest ih => simp [drainQueue, ih]

theorem poll_eq (b : BgState) : poll b = (b.queue, ⟨b.task, []⟩) := by
  simp [poll, drainQueue_eq]

/-- The Run State a task exhibits: `RUNNING` while the scheduler loop is
alive, otherwise the terminal state it converged to. -/
def runStateOf : TaskState → RunState
  | TaskState.running _ => RunState.RUNNING
  | TaskState.finished t _ => t

/-- Run State of a workflow instance given its previous (or in-flight)
run, `IDLE` for a fresh instance. -/
def prevRunState : Option TaskState → RunState
  | none => RunState.IDLE
  | some t => runStateOf t

/-- Modelled from the spec: the scheduler state a fresh run starts from —
the initial invocations, an empty accumulator, and (per the data model:
local state is NOT cleared between runs) the previous run's pending
table, local state and request-id counter. -/
def initialSched (invs : List Invocation) (prev : Option TaskState) : SchedState :=
  match prev with
  | none => ⟨invs, [], [], [], 0, none⟩
  | some (TaskState.running st) => ⟨invs, [], st.pending, st.localState, st.nextReqId, none⟩
  | some (TaskState.finished _ st) => ⟨invs, [], st.pending, st.localState, st.nextReqId, none⟩

/-- Modelled from the spec: response resolution (section 4.2) — for each
entry of the responses map, look up the Pending Request, failing with
`InvalidRequestId` if absent; on success remove the entry and build the
synthetic invocation of the originating executor's response handler with
the original request payload and the response payload. -/
def resolveResponses (pending : List PendingRequest) :
    List (String × Val) → Except ErrorKind (List PendingRequest × List Invocation)
  | [] => Except.ok (pending, [])
  | (rid, v) :: rest =>
    match pending.find? (fun p => p.reqId == rid) with
    | none => Except.error ErrorKind.InvalidRequestId
    | some p =>
      match resolveResponses (pending.filter (fun q => q.reqId != rid)) rest with
      | Except.error e => Except.error e
      | Except.ok (pending', invs) =>
          Except.ok (pending', Invocation.response p.executorId p.request v :: invs)

/-- Modelled from the spec: `run_in_background` (sections 4.3, 6) —
validate the input (at least one of initial message and responses,
`MissingInput` / `ConflictingInput` otherwise, rejected before any task
is spawned), apply the concurrency guard (`ConcurrentRunRejected` while
the Run State is `RUNNING`), then spawn the scheduler task with a fresh
event queue holding the `started` event. -/
def run_in_background (g : WorkflowGraph) (prev : Option TaskState)
    (initial : Option Val) (responses : Option (List (String × Val))) :
    Except ErrorKind BgState :=
  match initial, responses with
  | none, none => Except.error ErrorKind.MissingInput
  | some _, some _ => Except.error ErrorKind.ConflictingInput
  | some m, none =>
      if prevRunState prev = RunState.RUNNING then
        Except.error ErrorKind.ConcurrentRunRejected
      else
        Except.ok ⟨TaskState.running (initialSched [Invocation.message g.startId m] prev),
                   [Event.started]⟩
  | none, some rs =>
      if prevRunState prev = RunState.RUNNING then
        Except.error ErrorKind.ConcurrentRunRejected
      else
        match prev with
        | some (TaskState.finished _ st) =>
          match resolveResponses st.pending rs with
          | Except.error e => Except.error e
          | Except.ok (pending', invs) =>
              Except.ok ⟨TaskState.running
                           { st with current := invs, next := [],
                                     pending := pending', failure := none },
                         [Event.started]⟩
        | _ => Except.error ErrorKind.InvalidRequestId

/-- Modelled from the spec: synchronous `run` — same validation and guard
as `run_in_background`, then the scheduler driven to completion
synchronously (`fuel` bounds the number of scheduler steps), returning
the full ordered event list and the final task. -/
def run (g : WorkflowGraph) (prev : Option TaskState) (initial : Option Val)
    (responses : Option (List (String × Val))) (fuel : Nat) :
    Except ErrorKind (List Event × TaskState) :=
  match run_in_background g prev initial responses with
  | Except.error e => Except.error e
  | Except.ok b => Except.ok (b.queue ++ runSteps g fuel b.task, stepN g fuel b.task)

/-- Modelled from the spec: `BackgroundRunHandle.respond` (section 4.2) —
resolve the responses against the Pending-Request Table; the synthetic
invocations join the in-flight superstep's next-round accumulator if the
scheduler is still `RUNNING`, or a freshly started scheduler loop if the
run had converged to `IDLE_WITH_PENDING_REQUESTS`; responding while the
state is plain `IDLE` or `FAILED` fails with `InvalidRequestId`. -/
def respondBg (_g : WorkflowGraph) (b : BgState) (rs : List (String × Val)) :
    Except ErrorKind BgState :=
  match b.task with
  | TaskState.running st =>
    match resolveResponses st.pending rs with
    | Except.error e => Except.error e
    | Except.ok (pending', invs) =>
        Except.ok ⟨TaskState.running
                     { st with pending := pending', next := st.next ++ invs },
                   b.queue⟩
  | TaskState.finished RunState.IDLE_WITH_PENDING_REQUESTS st =>
    match resolveResponses st.pending rs with
    | Except.error e => Except.error e
    | Except.ok (pending', invs) =>
        Except.ok ⟨TaskState.running
                     { st with current := invs, next := [], pending := pending' },
                   b.queue⟩
  | TaskState.finished _ _ => Except.error ErrorKind.InvalidRequestId

/-- The Pending-Request Table visible through a handle's task. -/
def pendingOf : TaskState → List PendingRequest
  | TaskState.running st => st.pending
  | TaskState.finished _ st => st.pending

/-- Claim C7: `poll()` drains every currently queued event as an ordered
sequence and leaves the queue empty (an empty sequence when none are
queued), so of two consecutive `poll()` calls with no intervening
scheduler activity the second returns an empty sequence. -/
theorem poll_drains_all_and_second_poll_empty (b : BgState) :
    (poll b).1 = b.queue
    ∧ (poll b).2.queue = []
    ∧ (poll (poll b).2).1 = [] := by
  rw [poll_eq]
  refine ⟨rfl, rfl, ?_⟩
  rw [poll_eq]

/-- An empty scheduler state (fresh instance with nothing queued). -/
def emptySched : SchedState := ⟨[], [], [], [], 0, none⟩

/-- `IncrementExecutor` from the tests: increments an integer payload
until a limit, then yields it as output. -/
def incrementExecutor (eid : String) (limit inc : Int) : Executor :=
  ⟨eid,
   fun p => match p with | Val.int _ => true | _ => false,
   fun p _ =>
     match p with
     | Val.int n =>
        if n < limit then ⟨[HandlerAction.sendMessage (Val.int (n + inc))], none, none⟩
        else ⟨[HandlerAction.yieldOutput (Val.int n)], none, none⟩
     | _ => ⟨[], none, none⟩,
   fun _ _ _ => ⟨[], none, none⟩⟩

/-- The two-executor ping-pong workflow from the tests (`limit = 3`). -/
def pingGraph : WorkflowGraph :=
  ⟨[incrementExecutor "a" 3 1, incrementExecutor "b" 3 1],
   [("a", "b"), ("b", "a")], "a"⟩

/-- Claim C1: starting a run (`run` or `run_in_background`, with either
input form) while the instance's Run State is `RUNNING` fails with
`ErrorKind.ConcurrentRunRejected`, and after a terminal `IDLE` or
`FAILED` run a subsequent start succeeds with a fresh in-flight run. -/
theorem concurrent_run_guard (g : WorkflowGraph) (prev : Option TaskState) (m : Val)
    (rs : List (String × Val)) (fuel : Nat) :
    (prevRunState prev = RunState.RUNNING →
       run_in_background g prev (some m) none = Except.error ErrorKind.ConcurrentRunRejected
       ∧ run_in_background g prev none (some rs) = Except.error ErrorKind.ConcurrentRunRejected
       ∧ run g prev (some m) none fuel = Except.error ErrorKind.ConcurrentRunRejected
       ∧ run g prev none (some rs) fuel = Except.error ErrorKind.ConcurrentRunRejected)
    ∧ ((prevRunState prev = RunState.IDLE ∨ prevRunState prev = RunState.FAILED) →
       ∃ b, run_in_background g prev (some m) none = Except.ok b ∧ is_idle b = false) := by
  constructor
  · intro h
    refine ⟨?_, ?_, ?_, ?_⟩ <;> simp [run, run_in_background, h]
  · intro h
    have hne : ¬ prevRunState prev = RunState.RUNNING := by
      rcases h with h | h <;> rw [h] <;> intro hc <;> exact RunState.noConfusion hc
    refine ⟨⟨TaskState.running (initialSched [Invocation.message g.startId m] prev),
             [Event.started]⟩, ?_, rfl⟩
    simp [run_in_background, hne]

/-- Witness for C1: a running instance rejects a new start, a fresh
instance accepts one. -/
theorem concurrent_run_guard_witness :
    run_in_background pingGraph (some (TaskState.running emptySched)) (some (Val.int 0)) none
      = Except.error ErrorKind.ConcurrentRunRejected
    ∧ ∃ b, run_in_background pingGraph none (some (Val.int 0)) none = Except.ok b
        ∧ is_idle b = false :=
  ⟨((concurrent_run_guard pingGraph (some (TaskState.running emptySched))
      (Val.int 0) [] 0).1 rfl).1,
   (concurrent_run_guard pingGraph none (Val.int 0) [] 0).2 (Or.inl rfl)⟩

/-- Claim C9: with neither an initial message nor a responses map, `run`
and `run_in_background` fail with `ErrorKind.MissingInput`; with both,
they fail with `ErrorKind.ConflictingInput`; for `run_in_background` the
error is the returned result itself, so no background task is spawned. -/
theorem input_validation (g : WorkflowGraph) (prev : Option TaskState) (m : Val)
    (rs : List (String × Val)) (fuel : Nat) :
    run_in_background g prev none none = Except.error ErrorKind.MissingInput
    ∧ run g prev none none fuel = Except.error ErrorKind.MissingInput
    ∧ run_in_background g prev (some m) (some rs) = Except.error ErrorKind.ConflictingInput
    ∧ run g prev (some m) (some rs) fuel = Except.error ErrorKind.ConflictingInput :=
  ⟨rfl, rfl, rfl, rfl⟩

/-- Claim C4: in every Run State, `respond` with a request id that has no
entry in the Pending-Request Table fails with
`ErrorKind.InvalidRequestId` (and, the result being an error, no
response-handler invocation is enqueued). -/
theorem respond_unknown_id (g : WorkflowGraph) (b : BgState) (rid : String) (v : Val)
    (h : (pendingOf b.task).find? (fun p => p.reqId == rid) = none) :
    respondBg g b [(rid, v)] = Except.error ErrorKind.InvalidRequestId := by
  match hb : b.task with
  | TaskState.running st =>
    have hp : st.pending.find? (fun p => p.reqId == rid) = none := by
      rw [hb] at h; exact h
    simp [respondBg, hb, resolveResponses, hp]
  | TaskState.finished t st =>
    have hp : st.pending.find? (fun p => p.reqId == rid) = none := by
      rw [hb] at h; exact h
    cases t <;> simp [respondBg, hb, resolveResponses, hp]

/-- Witness for C4: responding with an unknown id on a running handle
with an empty pending table fails with `InvalidRequestId`. -/
theorem respond_unknown_id_witness :
    respondBg pingGraph ⟨TaskState.running emptySched, []⟩ [("nonexistent_id", Val.bool true)]
      = Except.error ErrorKind.InvalidRequestId :=
  respond_unknown_id pingGraph ⟨TaskState.running emptySched, []⟩ "nonexistent_id"
    (Val.bool true) rfl

/-- `RequestApprovalExecutor` from the tests: stores the incoming integer
in local state and requests approval; its response handler yields the
stored value on approval and `-1` on denial. -/
def approvalExecutor (eid : String) : Executor :=
  ⟨eid,
   fun p => match p with | Val.int _ => true | _ => false,
   fun p _ =>
     match p with
     | Val.int n => ⟨[HandlerAction.requestInfo (Val.str "Approve?")], some (Val.int n), none⟩
     | _ => ⟨[], none, none⟩,
   fun _ resp stVal =>
     match resp, stVal with
     | Val.bool ap, some (Val.int n) =>
         ⟨[HandlerAction.yieldOutput (if ap then Val.int n else Val.int (-1))], none, none⟩
     | _, _ => ⟨[], none, none⟩⟩

/-- `PassthroughExecutor` from the tests: forwards the message downstream. -/
def passthroughExecutor (eid : String) : Executor :=
  ⟨eid,
   fun p => match p with | Val.int _ => true | _ => false,
   fun p _ => ⟨[HandlerAction.sendMessage p], none, none⟩,
   fun _ _ _ => ⟨[], none, none⟩⟩

/-- The tail of the hot path in the mid-run-respond test (`SlowExecutor`):
yields the integer payload times 100. -/
def timesHundredExecutor (eid : String) : Executor :=
  ⟨eid,
   fun p => match p with | Val.int _ => true | _ => false,
   fun p _ =>
     match p with
     | Val.int n => ⟨[HandlerAction.yieldOutput (Val.int (n * 100))], none, none⟩
     | _ => ⟨[], none, none⟩,
   fun _ _ _ => ⟨[], none, none⟩⟩

/-- `FailingExecutor` from the tests: unconditionally raises. -/
def failingExecutor (eid : String) : Executor :=
  ⟨eid,
   fun _ => true,
   fun _ _ => ⟨[], none, some "Intentional failure"⟩,
   fun _ _ _ => ⟨[], none, none⟩⟩

/-- Single-executor approval workflow from the respond tests. -/
def approvalGraph : WorkflowGraph :=
  ⟨[approvalExecutor "approval"], [], "approval"⟩

/-- Fan-out workflow from the mid-run-respond test: the start executor
fans out to the approval path and to a multi-superstep hot path that
keeps producing supersteps before yielding its output. -/
def fanGraph : WorkflowGraph :=
  ⟨[passthroughExecutor "start", approvalExecutor "approval",
    passthroughExecutor "s1", passthroughExecutor "s2", timesHundredExecutor "slow"],
   [("start", "approval"), ("start", "s1"), ("s1", "s2"), ("s2", "slow")],
   "start"⟩

/-- Single failing-executor workflow from the failure test. -/
def failGraph : WorkflowGraph :=
  ⟨[failingExecutor "failing"], [], "failing"⟩

/-- Output payloads among a list of events. -/
def outputsOf (evs : List Event) : List Val :=
  evs.filterMap (fun e => match e with | Event.output v => some v | _ => none)

/-- Failed events (kind and message) among a list of events. -/
def failedOf (evs : List Event) : List (ErrorKind × String) :=
  evs.filterMap (fun e => match e with | Event.failed k m => some (k, m) | _ => none)

/-- Request-info events (id and request payload) among a list of events. -/
def requestsOf (evs : List Event) : List (String × Val) :=
  evs.filterMap (fun e => match e with | Event.request_info rid r => some (rid, r) | _ => none)

/-- The handle spawned for the approval workflow with input `42`. -/
def approvalB0 : BgState :=
  ⟨TaskState.running ⟨[Invocation.message "approval" (Val.int 42)], [], [], [], 0, none⟩,
   [Event.started]⟩

/-- The approval handle after the background task has converged (two
scheduler steps: the request superstep and the convergence step). -/
def approvalB2 : BgState := bgStepN approvalGraph 2 approvalB0

/-- The approval handle after responding approval to request `req0`. -/
def approvalB3 : BgState :=
  match respondBg approvalGraph approvalB2 [("req0", Val.bool true)] with
  | Except.ok b => b
  | Except.error _ => approvalB0

/-- The handle spawned for the fan-out workflow with input `7`. -/
def fanB0 : BgState :=
  ⟨TaskState.running ⟨[Invocation.message "start" (Val.int 7)], [], [], [], 0, none⟩,
   [Event.started]⟩

/-- The fan-out handle after two supersteps: the approval branch has
issued its request while the hot path is still mid-run. -/
def fanB2 : BgState := bgStepN fanGraph 2 fanB0

/-- The fan-out handle after responding to `req0` while still running. -/
def fanB3 : BgState :=
  match respondBg fanGraph fanB2 [("req0", Val.bool true)] with
  | Except.ok b => b
  | Except.error _ => fanB0

/-- The handle spawned for the failing workflow with input `0`. -/
def failB0 : BgState :=
  ⟨TaskState.running ⟨[Invocation.message "failing" (Val.int 0)], [], [], [], 0, none⟩,
   [Event.started]⟩

/-- The failing handle after its task finishes (the failing superstep and
the failure-propagation step). -/
def failB2 : BgState := bgStepN failGraph 2 failB0

/-- The next-superstep accumulator visible through a task. -/
def nextOf : TaskState → List Invocation
  | TaskState.running st => st.next
  | TaskState.finished _ st => st.next

/-- Claim C2: a background run converged to
`IDLE_WITH_PENDING_REQUESTS` (handle idle, a `request_info` event with
request id `req0` emitted); `respond` with that id and a matching payload
restarts the scheduler task — the handle transitions from idle back to
non-idle — and polling after the task finishes yields the output the
response handler produced, with no new `run_in_background` call. -/
theorem respond_after_idle_resumes :
    run_in_background approvalGraph none (some (Val.int 42)) none = Except.ok approvalB0
    ∧ is_idle approvalB2 = true
    ∧ runStateOf approvalB2.task = RunState.IDLE_WITH_PENDING_REQUESTS
    ∧ requestsOf approvalB2.queue = [("req0", Val.str "Approve?")]
    ∧ respondBg approvalGraph approvalB2 [("req0", Val.bool true)] = Except.ok approvalB3
    ∧ is_idle approvalB3 = false
    ∧ is_idle (bgStepN approvalGraph 2 approvalB3) = true
    ∧ outputsOf (poll (bgStepN approvalGraph 2 approvalB3)).1 = [Val.int 42] :=
  ⟨rfl, rfl, rfl, rfl, rfl, rfl, rfl, rfl⟩

/-- Claim C3: responding to the approval branch's request while the
fan-out run is still `RUNNING` (the hot path keeps producing supersteps)
joins the in-flight run's next-superstep accumulator rather than
restarting it — the task stays `RUNNING` through the respond — and the
completed run's event sequence contains the outputs of both the
responding branch (`7`) and the still-running branch (`700`). -/
theorem respond_while_running_joins_run :
    run_in_background fanGraph none (some (Val.int 7)) none = Except.ok fanB0
    ∧ is_idle fanB2 = false
    ∧ runStateOf fanB2.task = RunState.RUNNING
    ∧ requestsOf fanB2.queue = [("req0", Val.str "Approve?")]
    ∧ respondBg fanGraph fanB2 [("req0", Val.bool true)] = Except.ok fanB3
    ∧ is_idle fanB3 = false
    ∧ runStateOf fanB3.task = RunState.RUNNING
    ∧ nextOf fanB3.task
        = [Invocation.response "approval" (Val.str "Approve?") (Val.bool true)]
    ∧ is_idle (bgStepN fanGraph 3 fanB3) = true
    ∧ outputsOf (bgStepN fanGraph 3 fanB3).queue = [Val.int 7, Val.int 700] :=
  ⟨rfl, rfl, rfl, rfl, rfl, rfl, rfl, rfl, rfl, rfl⟩

/-- Claim C5: a background run whose executor raises an unhandled error
produces exactly one `failed` event, whose message carries the original
error text verbatim; `poll` returns the drained events (a plain list, so
the error is not re-raised to the caller) and `is_idle` becomes true
after the failure. -/
theorem failure_produces_failed_event :
    run_in_background failGraph none (some (Val.int 0)) none = Except.ok failB0
    ∧ is_idle failB2 = true
    ∧ runStateOf failB2.task = RunState.FAILED
    ∧ failedOf failB2.queue = [(ErrorKind.ExecutorFailure, "Intentional failure")]
    ∧ (poll failB2).1 = failB2.queue
    ∧ failedOf (poll failB2).1 = [(ErrorKind.ExecutorFailure, "Intentional failure")] :=
  ⟨rfl, rfl, rfl, rfl, rfl, rfl⟩

/-- Claim C8: `is_idle` is true exactly when the underlying task has
finished (a finished task produces no further events), it is true for
every terminal Run State — `IDLE`, `IDLE_WITH_PENDING_REQUESTS` and
`FAILED` alike — and its value does not depend on which terminal state
was reached, so `is_idle` alone cannot distinguish them. -/
theorem is_idle_iff_task_finished (g : WorkflowGraph) (b : BgState) (t : RunState)
    (st : SchedState) (q : List Event) :
    (is_idle b = true ↔ ∃ r s, b.task = TaskState.finished r s)
    ∧ (stepTask g (TaskState.finished t st)).2 = []
    ∧ (t = RunState.IDLE ∨ t = RunState.IDLE_WITH_PENDING_REQUESTS ∨ t = RunState.FAILED →
        is_idle ⟨TaskState.finished t st, q⟩ = true)
    ∧ (∀ t₂ st₂ q₂, is_idle ⟨TaskState.finished t st, q⟩
        = is_idle ⟨TaskState.finished t₂ st₂, q₂⟩) := by
  refine ⟨?_, rfl, fun _ => rfl, fun _ _ _ => rfl⟩
  cases hb : b.task with
  | running s => simp [is_idle, taskDone, hb]
  | finished r s => simp [is_idle, taskDone, hb]

/-- Witness for C8: a handle whose task finished in `FAILED` reports
idle. -/
theorem is_idle_iff_task_finished_witness :
    is_idle ⟨TaskState.finished RunState.FAILED emptySched, []⟩ = true :=
  (is_idle_iff_task_finished failGraph
      ⟨TaskState.finished RunState.FAILED emptySched, []⟩
      RunState.FAILED emptySched []).2.2.1 (Or.inr (Or.inr rfl))

/-- A consumer-side observation on a background handle: let the task make
one scheduler step, or drain the queue via `poll`. -/
inductive BgAction where
  | step
  | poll
deriving DecidableEq, Repr

def countSteps : List BgAction → Nat
  | [] => 0
  | BgAction.step :: rest => countSteps rest + 1
  | BgAction.poll :: rest => countSteps rest

/-- Execute an interleaving of task steps and `poll` calls on a handle,
collecting the concatenation of everything the polls returned. -/
def bgExec (g : WorkflowGraph) : List BgAction → BgState → List Event × BgState
  | [], b => ([], b)
  | BgAction.step :: rest, b => bgExec g rest (bgStep g b)
  | BgAction.poll :: rest, b =>
      let (evs, b') := poll b
      let (more, b'') := bgExec g rest b'
      (evs ++ more, b'')

theorem taskDone_stepTask (g : WorkflowGraph) (t : TaskState) (h : taskDone t = true) :
    stepTask g t = (t, []) := by
  cases t with
  | running st => simp [taskDone] at h
  | finished r st => rfl

theorem taskDone_runSteps (g : WorkflowGraph) (n : Nat) (t : TaskState)
    (h : taskDone t = true) : runSteps g n t = [] := by
  induction n with
  | zero => rfl
  | succ k ih =>
    rw [runSteps, taskDone_stepTask g t h]
    simpa using ih

theorem runSteps_add (g : WorkflowGraph) (a b : Nat) (t : TaskState) :
    runSteps g (a + b) t = runSteps g a t ++ runSteps g b (stepN g a t) := by
  induction a generalizing t with
  | zero => simp [runSteps, stepN]
  | succ k ih =>
    have hsum : k + 1 + b = (k + b) + 1 := by omega
    rw [hsum, runSteps, runSteps, ih]
    simp [stepN]

/-- Invariant of the background run: the events the polls returned plus
the events still queued are exactly the events the task emitted, in
order, and the handle's task is the task advanced by the number of step
actions. -/
theorem bgExec_spec (g : WorkflowGraph) :
    ∀ (as : List BgAction) (b : BgState),
      (bgExec g as b).1 ++ (bgExec g as b).2.queue
        = b.queue ++ runSteps g (countSteps as) b.task
      ∧ (bgExec g as b).2.task = stepN g (countSteps as) b.task := by
  intro as
  induction as with
  | nil => intro b; simp [bgExec, countSteps, runSteps, stepN]
  | cons a rest ih =>
    intro b
    cases a with
    | step =>
      have h := ih (bgStep g b)
      constructor
      · rw [show bgExec g (BgAction.step :: rest) b = bgExec g rest (bgStep g b) from rfl,
            h.1]
        simp [bgStep, countSteps, runSteps, stepN]
      · rw [show bgExec g (BgAction.step :: rest) b = bgExec g rest (bgStep g b) from rfl,
            h.2]
        simp [bgStep, countSteps, stepN]
    | poll =>
      have h := ih ⟨b.task, []⟩
      have hdef : bgExec g (BgAction.poll :: rest) b
          = (b.queue ++ (bgExec g rest ⟨b.task, []⟩).1, (bgExec g rest ⟨b.task, []⟩).2) := by
        simp [bgExec, poll_eq]
      constructor
      · rw [hdef]
        simp only [countSteps]
        rw [List.append_assoc, h.1]
        simp
      · rw [hdef]
        simpa [countSteps] using h.2

/-- Claim C6: for a background run started by `run_in_background`,
concatenating the event sequences returned by the `poll()` calls of any
interleaving of task progress and polling that ends with the handle idle,
plus a final drain, yields exactly the ordered event sequence the
synchronous `run` on the same graph, instance state and input produces —
no event lost, duplicated or reordered. -/
theorem background_drain_refines_run (g : WorkflowGraph) (prev : Option TaskState)
    (initial : Option Val) (responses : Option (List (String × Val)))
    (b₀ : BgState) (as : List BgAction) (fuel : Nat)
    (hstart : run_in_background g prev initial responses = Except.ok b₀)
    (hidle : is_idle (bgExec g as b₀).2 = true)
    (hfuel : countSteps as ≤ fuel) :
    run g prev initial responses fuel
      = Except.ok ((bgExec g as b₀).1 ++ (poll (bgExec g as b₀).2).1,
                   stepN g fuel b₀.task) := by
  have hspec := bgExec_spec g as b₀
  have htask : taskDone (stepN g (countSteps as) b₀.task) = true := by
    rw [← hspec.2]; exact hidle
  have hsplit : runSteps g fuel b₀.task = runSteps g (countSteps as) b₀.task := by
    have hf : fuel = countSteps as + (fuel - countSteps as) := by omega
    rw [hf, runSteps_add, taskDone_runSteps g _ _ htask, List.append_nil]
  have hpoll : (poll (bgExec g as b₀).2).1 = (bgExec g as b₀).2.queue := by
    rw [poll_eq]
  rw [run, hstart]
  show Except.ok (b₀.queue ++ runSteps g fuel b₀.task, stepN g fuel b₀.task)
      = Except.ok ((bgExec g as b₀).1 ++ (poll (bgExec g as b₀).2).1, stepN g fuel b₀.task)
  rw [hsplit, hpoll, hspec.1]

/-- The consumer schedule used in the C6 witness: one poll mid-run, the
five task steps the ping-pong run needs, then the final drain happens in
the theorem's conclusion. -/
def pingActs : List BgAction :=
  [BgAction.step, BgAction.poll, BgAction.step, BgAction.step, BgAction.step, BgAction.step]

/-- The handle spawned for the ping-pong workflow with input `0`. -/
def pingB0 : BgState :=
  ⟨TaskState.running ⟨[Invocation.message "a" (Val.int 0)], [], [], [], 0, none⟩,
   [Event.started]⟩

/-- Witness for C6: on the ping-pong workflow, polls plus the final drain
reproduce the synchronous run's event sequence. -/
theorem background_drain_refines_run_witness :
    run pingGraph none (some (Val.int 0)) none 5
      = Except.ok ((bgExec pingGraph pingActs pingB0).1
                     ++ (poll (bgExec pingGraph pingActs pingB0).2).1,
                   stepN pingGraph 5 pingB0.task) :=
  background_drain_refines_run pingGraph none (some (Val.int 0)) none pingB0 pingActs 5
    rfl rfl (by decide)

/-- An agent as seen by the workflow agent utilities: a stable id and an
optional display name. -/
structure Agent where
  id : String
  name : Option String
deriving DecidableEq, Repr

/-- Modelled from the spec: `resolve_agent_id` from
`agent_framework/_workflows/_agent_utils.py` (the module itself is not
among the visible sources; its behavior is pinned by
`tests/workflow/test_agent_utils.py`): the agent's name when it is a
non-empty string, otherwise the agent's id. -/
def resolve_agent_id (a : Agent) : String :=
  match a.name with
  | some n => if n = "" then a.id else n
  | none => a.id

/-- Claim C10: `resolve_agent_id` returns the agent's name when that name
is a non-empty string, and falls back to the agent's id when the name is
`none` or the empty string. -/
theorem resolve_agent_id_spec (a : Agent) (n : String) :
    (a.name = some n → n ≠ "" → resolve_agent_id a = n)
    ∧ (a.name = none → resolve_agent_id a = a.id)
    ∧ (a.name = some "" → resolve_agent_id a = a.id) := by
  refine ⟨?_, ?_, ?_⟩
  · intro h hn
    simp [resolve_agent_id, h, hn]
  · intro h
    simp [resolve_agent_id, h]
  · intro h
    simp [resolve_agent_id, h]

/-- Witness for C10: the three concrete agents of the tests. -/
theorem resolve_agent_id_spec_witness :
    resolve_agent_id ⟨"agent-123", some "MyAgent"⟩ = "MyAgent"
    ∧ resolve_agent_id ⟨"agent-456", none⟩ = "agent-456"
    ∧ resolve_agent_id ⟨"agent-789", some ""⟩ = "agent-789" :=
  ⟨(resolve_agent_id_spec ⟨"agent-123", some "MyAgent"⟩ "MyAgent").1 rfl (by decide),
   (resolve_agent_id_spec ⟨"agent-456", none⟩ "x").2.1 rfl,
   (resolve_agent_id_spec ⟨"agent-789", some ""⟩ "x").2.2 rfl⟩

end AF
